import Mathlib

/-
Verification of the m-lab/access access-envelope service against its
natural-language specification.  The definitions below are a shallow
embedding of the Go sources: token/jwt.go (JWK loading, JWT claim
validation, key-set construction), controller (token gate, tx rate gate),
address (iptables grant/revoke budget, save/restore lifecycle) and
cmd/envelope/main.go (session deadline derivation).  Machine integers are
modelled as Int/Nat; fallible operations return Except or Option; external
effects (the packet-filter tool, the listener) are passed in as explicit
oracle arguments.
-/

namespace Access

/-! ## Token data model (token/jwt.go and the go-jose jwt library)

Claims mirrors jwt.Claims: issuer, subject, id, audience, and the numeric
time fields notBefore and expiry (unix seconds, modelled as Int; the Go nil
NumericDate reads as the zero time and is modelled by 0).  Expected mirrors
jwt.Expected of go-jose v4: the evaluation instant e.Time is a time.Time
whose zero value disables the time checks, modelled as Option Int. -/

structure Claims where
  issuer : String
  subject : String
  id : String
  audience : List String
  notBefore : Int
  expiry : Int
deriving Repr, DecidableEq

structure Expected where
  issuer : String
  subject : String
  id : String
  anyAudience : List String
  time : Option Int
deriving Repr, DecidableEq

inductive ValidationError where
  | invalidIssuer
  | invalidSubject
  | invalidID
  | invalidAudience
  | notValidYet
  | expired
deriving Repr, DecidableEq

/-- DefaultLeeway of the go-jose jwt library: one minute (in seconds). -/
def defaultLeeway : Int := 60

/-- Embedding of go-jose v4 jwt.Claims.ValidateWithLeeway, the claim
validation invoked by Verifier.Verify in token/jwt.go.  Checks run in
source order: issuer, subject, id, audience (at least one expected element
must appear in the claim audience), not-before, expiry.  The time checks
use the strict Before/After comparisons of the source. -/
def validateWithLeeway (cl : Claims) (e : Expected) (leeway : Int) :
    Option ValidationError :=
  if e.issuer ≠ "" ∧ e.issuer ≠ cl.issuer then some .invalidIssuer
  else if e.subject ≠ "" ∧ e.subject ≠ cl.subject then some .invalidSubject
  else if e.id ≠ "" ∧ e.id ≠ cl.id then some .invalidID
  else if e.anyAudience ≠ [] ∧
      ¬ (e.anyAudience.any (fun v => cl.audience.contains v)) = true then
    some .invalidAudience
  else
    match e.time with
    | none => none
    | some t =>
      if t + leeway < cl.notBefore then some .notValidYet
      else if t - leeway > cl.expiry then some .expired
      else none

/-- Embedding of go-jose jwt.Claims.Validate: ValidateWithLeeway at the
library default leeway of one minute.  This is the call made by
Verifier.Verify (token/jwt.go). -/
def validate (cl : Claims) (e : Expected) : Option ValidationError :=
  validateWithLeeway cl e defaultLeeway

/-! ## Key set construction (NewVerifier, token/jwt.go revision with the
duplicate-kid check) -/

structure JWK where
  kid : String
deriving Repr, DecidableEq

/-- A serialized key descriptor as seen by LoadJSONWebKey: it either
parses to a JWK or fails (malformed material, wrong public/private kind). -/
inductive KeyDesc where
  | valid (k : JWK)
  | invalid
deriving Repr, DecidableEq

inductive VerifierError where
  | loadError
  | duplicateKeyID (kid : String)
deriving Repr, DecidableEq

/-- Embedding of LoadJSONWebKey restricted to the outcome relevant here:
a descriptor either loads to a key or fails. -/
def loadJSONWebKey : KeyDesc → Except VerifierError JWK
  | .valid k => .ok k
  | .invalid => .error .loadError

/-- Membership test on the kid-indexed key map (Go map lookup), with the
map modelled as an association list. -/
def containsKid (keys : List (String × JWK)) (kid : String) : Bool :=
  keys.any (fun p => p.1 = kid)

/-- Loop body of NewVerifier (token/jwt.go, map-based revision): load each
descriptor in order; a load failure aborts with that error; a kid already
present in the map aborts with ErrDuplicateKeyID; otherwise the key is
inserted under its kid. -/
def newVerifierLoop : List KeyDesc → List (String × JWK) →
    Except VerifierError (List (String × JWK))
  | [], acc => .ok acc
  | d :: rest, acc =>
    match loadJSONWebKey d with
    | .error e => .error e
    | .ok pub =>
      if containsKid acc pub.kid then .error (.duplicateKeyID pub.kid)
      else newVerifierLoop rest (acc ++ [(pub.kid, pub)])

/-- Embedding of NewVerifier (token/jwt.go): build the kid-indexed key set
from the serialized descriptors. -/
def NewVerifier (descs : List KeyDesc) :
    Except VerifierError (List (String × JWK)) :=
  newVerifierLoop descs []

/-! ## Claims extraction and Verify (token/jwt.go) -/

inductive TokenError where
  | parseError
  | noHeaders
  | keyIDNotFound (kid : String)
  | badSignature
deriving Repr, DecidableEq

/-- A compact token as Verifier.Claims sees it after jwt.ParseSigned: the
parse either fails (malformed token or disallowed algorithm) or yields the
header key ids, the embedded claims, and the signature check outcome as a
function of the selected key id (the key set binds each kid to one key). -/
inductive Token where
  | malformed
  | parsed (headerKids : List String) (cl : Claims) (sigValidFor : String → Bool)

/-- Embedding of Verifier.Claims (token/jwt.go): parse, require a header,
look the header kid up in the key set (missing kid is the distinguished
ErrKeyIDNotFound carrying the kid), then check the signature with the
selected key before yielding the claims. -/
def claimsOf (keys : List (String × JWK)) : Token → Except TokenError Claims
  | .malformed => .error .parseError
  | .parsed headerKids cl sigValidFor =>
    match headerKids with
    | [] => .error .noHeaders
    | kid :: _ =>
      if containsKid keys kid then
        if sigValidFor kid then .ok cl else .error .badSignature
      else .error (.keyIDNotFound kid)

inductive VerifyError where
  | tokenError (e : TokenError)
  | validationError (v : ValidationError)
deriving Repr, DecidableEq

/-- Embedding of Verifier.Verify (token/jwt.go): extract the claims, then
validate them against the expected pattern.  The Go function returns the
pair (claims pointer, error); when extraction fails the claims are nil,
and when only validation fails the claims are returned together with the
non-nil validation error. -/
def verify (keys : List (String × JWK)) (tok : Token) (e : Expected) :
    Option Claims × Option VerifyError :=
  match claimsOf keys tok with
  | .error err => (none, some (.tokenError err))
  | .ok cl => (some cl, (validate cl e).map .validationError)

/-! ## Controller: monitoring detection and tx rate gate
(controller/control.go and the TxController source) -/

/-- Embedding of IsMonitoring (controller/control.go): a nil claim is not
monitoring; otherwise the claim subject must equal the monitorSubject
constant "monitoring". -/
def IsMonitoring : Option Claims → Bool
  | none => false
  | some cl => cl.subject = "monitoring"

/-- Embedding of TxController.isLimited: the request is rejected iff the
configured limit is set (non-zero), the current rate strictly exceeds it,
the request is not flagged monitoring, and the resource path is enforced.
Rates are uint64, modelled as Nat. -/
def isLimited (limit cur : Nat) (monitoring enforcedPath : Bool) : Bool :=
  if limit > 0 ∧ cur > limit ∧ !monitoring ∧ enforcedPath then true
  else false

/-- Embedding of the decision inside TxController.Limit: the monitoring
flag is read from the claim attached to the request context, and the
enforced flag is the Enforced-set membership of the request path (the Go
map Paths is modelled as the list of paths mapped to true).  The result
true means the request is rejected with 503. -/
def txLimitGate (limit cur : Nat) (claim : Option Claims)
    (enforced : List String) (path : String) : Bool :=
  isLimited limit cur (IsMonitoring claim) (enforced.contains path)

/-- State of a TxController as consulted by Accept: the configured ceiling
and the current smoothed rate. -/
structure TxState where
  limit : Nat
  cur : Nat
deriving Repr, DecidableEq

/-- Embedding of TxController.Accept.  The underlying listener Accept
outcome is the argument res (a connection id or an error message).  The
returned triple is (result, connection closed, rate limit consulted): a
nil controller passes res through untouched; an Accept error is propagated
without consulting the limit; a connection accepted while limited (all raw
accepts count as enforced, not monitoring) is closed and replaced by the
rejection error. -/
def acceptTx (tx : Option TxState) (res : Except String Nat) :
    Except String Nat × Bool × Bool :=
  match tx with
  | none => (res, false, false)
  | some t =>
    match res with
    | .error e => (.error e, false, false)
    | .ok conn =>
      if isLimited t.limit t.cur false true then
        (.error "TxController rejected connection", true, true)
      else (.ok conn, false, true)

/-! ## Controller: credential gate with enforced paths -/

/-- Decision of the credential gate: allow the request onward (with the
claim, if any, attached to the request context) or reject it with an HTTP
status code. -/
inductive GateDecision where
  | allow (claim : Option Claims)
  | reject (status : Nat)
deriving Repr, DecidableEq

/-- Modelled from the spec: the enforced-paths credential gate of the
token controller.  The controller/token.go revision carrying the
Enforced-paths set is absent from src (only its callers such as
AllowPathLabel in cmd/envelope/main.go and its tests remain), so the gate
is modelled from the specification text: a path outside the enforced set
is allowed unconditionally with no claim attached; on an enforced path a
missing token is allowed without a claim when tokens are not required and
rejected with 401 when they are; a present token is verified, attaching
the claim on success and rejecting with 401 on failure.  Token
verification is abstracted by the oracle verifyTok. -/
def credentialGate (enforced : List String) (required : Bool)
    (verifyTok : String → Option Claims) (path : String)
    (token : Option String) : GateDecision :=
  if enforced.contains path then
    match token with
    | none => if required then .reject 401 else .allow none
    | some t =>
      match verifyTok t with
      | some cl => .allow (some cl)
      | none => .reject 401
  else .allow none

/-! ## Envelope session deadline (cmd/envelope/main.go) -/

inductive DeadlineError where
  | missingClaim
  | wrongSubject
  | pastExpiration
deriving Repr, DecidableEq

/-- Embedding of envelopeHandler.getDeadline (cmd/envelope/main.go).
Times are unix seconds as Int; timeout is the service minimum session
duration.  The source checks, in order: a nil claim with tokens required
is an error; a nil claim otherwise yields now + timeout; a subject
differing from the configured service subject is an error; an expiry
strictly before now is an error; finally the deadline is the claim expiry,
raised to now + timeout when it is earlier. -/
def getDeadline (requireTokens : Bool) (timeout : Int) (subject : String)
    (now : Int) (cl : Option Claims) : Except DeadlineError Int :=
  match cl with
  | none =>
    if requireTokens then .error .missingClaim
    else .ok (now + timeout)
  | some c =>
    if c.subject ≠ subject then .error .wrongSubject
    else if c.expiry < now then .error .pastExpiration
    else if c.expiry < now + timeout then .ok (now + timeout)
    else .ok c.expiry

/-! ## Address: grant budget semaphore (address/granter.go with
golang.org/x/sync semaphore.Weighted) -/

inductive GrantError where
  | maxConcurrent
  | insertError
  | deleteError
deriving Repr, DecidableEq

/-- Embedding of semaphore.Weighted.TryAcquire(1) in the sequential (no
waiters) case: succeeds iff the acquired count stays within the size. -/
def tryAcquire (size cur : Int) : Bool := cur + 1 ≤ size

/-- Embedding of semaphore.Weighted.Release(1): decrements the acquired
count and panics (modelled as none) when more is released than held. -/
def release (cur : Int) : Option Int :=
  if cur - 1 < 0 then none else some (cur - 1)

/-- Embedding of IPManager.Grant (address/granter.go) acting on the
semaphore count.  insertOK is the outcome of the iptables rule insertion.
A failed TryAcquire returns ErrMaxConcurrent without touching the count;
a failed insertion releases the reservation before returning the error. -/
def grantStep (size cur : Int) (insertOK : Bool) :
    Option (Int × Option GrantError) :=
  if ¬ tryAcquire size cur then some (cur, some .maxConcurrent)
  else if insertOK then some (cur + 1, none)
  else (release (cur + 1)).map (fun c => (c, some .insertError))

/-- Embedding of IPManager.Revoke (address/granter.go) acting on the
semaphore count.  deleteOK is the outcome of the iptables rule deletion.
The reservation is released only when the deletion succeeds. -/
def revokeStep (cur : Int) (deleteOK : Bool) :
    Option (Int × Option GrantError) :=
  if deleteOK then (release cur).map (fun c => (c, none))
  else some (cur, some .deleteError)

/-- One call against the IPManager: a Grant whose rule insertion has the
given outcome, or a Revoke whose rule deletion has the given outcome. -/
inductive FwOp where
  | grant (insertOK : Bool)
  | revoke (deleteOK : Bool)
deriving Repr, DecidableEq

/-- Step of the IPManager semaphore count under one call. -/
def fwStep (size cur : Int) : FwOp → Option (Int × Option GrantError)
  | .grant insertOK => grantStep size cur insertOK
  | .revoke deleteOK => revokeStep cur deleteOK

/-- Run a sequence of Grant/Revoke calls from a given count; none models
a semaphore panic (release of more than held). -/
def fwRun (size : Int) : List FwOp → Int → Option Int
  | [], cur => some cur
  | op :: ops, cur =>
    match fwStep size cur op with
    | none => none
    | some (c, _) => fwRun size ops c

/-! ## Address: grant rule contents -/

/-- Client addresses, by family.  The Go test ip.To4() is true exactly on
the v4 constructor. -/
inductive IPAddr where
  | v4 (s : String)
  | v6 (s : String)
deriving Repr, DecidableEq

def IPAddr.str : IPAddr → String
  | .v4 s => s
  | .v6 s => s

/-- One packet-filter rule invocation: the tool run, the chain operation
(insert, append or delete), the chain, the optional source match, the
optional protocol and destination-port match, the jump target, and the
wait budget in seconds for the tool internal lock. -/
structure FwRule where
  tool : String
  action : String
  chain : String
  source : Option String
  protocol : Option String
  dport : Option Nat
  jump : String
  wait : Nat
deriving Repr, DecidableEq

/-- Modelled from the spec: cmdForIP of the dual-family address revision
(absent from src, whose granter.go revision drives a single configured
tool; the dual-family revision is referenced by its tests through the
ip4tables and ip6tables flag variables).  The packet-filter utility is
decided by the address family, and the subnet mask is /24 for IPv4 and
/64 for IPv6. -/
def cmdForIP : IPAddr → String × String
  | .v4 _ => ("ip4tables", "/24")
  | .v6 _ => ("ip6tables", "/64")

/-- Modelled from the spec: the three allow-rules issued by Grant of the
dual-family address revision (absent from src).  On reservation Grant
INSERTs, with a 10 second wait budget: ACCEPT for the source subnet of the
address, ACCEPT for tcp destination port 80, and ACCEPT for tcp
destination port 443, all on the INPUT chain. -/
def allowRules (command : String) (ip : IPAddr) : List FwRule :=
  let cs := cmdForIP ip
  [ { tool := cs.1, action := command, chain := "INPUT",
      source := some (ip.str ++ cs.2), protocol := none, dport := none,
      jump := "ACCEPT", wait := 10 },
    { tool := cs.1, action := command, chain := "INPUT",
      source := none, protocol := some "tcp", dport := some 80,
      jump := "ACCEPT", wait := 10 },
    { tool := cs.1, action := command, chain := "INPUT",
      source := none, protocol := some "tcp", dport := some 443,
      jump := "ACCEPT", wait := 10 } ]

/-- Modelled from the spec: the rule-issuing part of Grant.  When the
budget reservation fails the distinguished max-concurrent error is
returned and no rule is issued; when it succeeds the three allow-rules
are inserted. -/
def grantRules (budgetFree : Bool) (ip : IPAddr) :
    Except GrantError (List FwRule) :=
  if budgetFree then .ok (allowRules "insert" ip)
  else .error .maxConcurrent

/-! ## Address: save/restore lifecycle (setup.go) -/

/-- Byte sequences captured from and piped back into the packet-filter
save/restore utilities. -/
abbrev Bytes := List Nat

inductive StopError where
  | notStarted
deriving Repr, DecidableEq

/-- State of the dual-family IPManager rulesets: the IPv4 and IPv6
snapshots saved by Start, nil before a successful Start. -/
structure FwSnapshots where
  origRules4 : Option Bytes
  origRules6 : Option Bytes
deriving Repr, DecidableEq

/-- Modelled from the spec: Start of the dual-family setup.go revision
(absent from src; referenced by its test through origRules4/origRules6).
Start saves the current ruleset of each family; if either save fails the
operation fails with that error and no snapshot pair is produced. -/
def startSnapshots (save4 save6 : Except String Bytes) :
    Except String FwSnapshots :=
  match save4 with
  | .error e => .error e
  | .ok r4 =>
    match save6 with
    | .error e => .error e
    | .ok r6 => .ok { origRules4 := some r4, origRules6 := some r6 }

/-- Modelled from the spec: Stop of the dual-family setup.go revision
(absent from src).  Before a successful Start the saved snapshots are nil
and Stop is a hard error restoring nothing; after a successful Start the
two snapshots are piped into the restore utilities (modelled by the
oracles restore4 and restore6) and the concatenation of their outputs is
returned.  The second component records which rulesets were piped into a
restore utility. -/
def stopRestore (st : FwSnapshots) (restore4 restore6 : Bytes → Bytes) :
    Except StopError Bytes × List Bytes :=
  match st.origRules4, st.origRules6 with
  | some r4, some r6 => (.ok (restore4 r4 ++ restore6 r6), [r4, r6])
  | _, _ => (.error .notStarted, [])

/-! ## Concrete example data used by the witnesses -/

/-- Kids carried by the loadable descriptors of a list, in order. -/
def kidsOf (descs : List KeyDesc) : List String :=
  descs.filterMap fun d =>
    match d with
    | .valid k => some k.kid
    | .invalid => none

/-- A claim shaped like the ones issued by the locate service. -/
def cl0 : Claims :=
  { issuer := "locate.measurementlab.net", subject := "envelope", id := "",
    audience := ["mlab1.fake0"], notBefore := 0, expiry := 100 }

/-- An expected pattern evaluated at instant 130, past the expiry of cl0. -/
def exp0 : Expected :=
  { issuer := "locate.measurementlab.net", subject := "", id := "",
    anyAudience := ["mlab1.fake0"], time := some 130 }

/-- An expected pattern whose issuer does not match cl0. -/
def exp1 : Expected :=
  { issuer := "some-other-issuer", subject := "", id := "",
    anyAudience := ["mlab1.fake0"], time := some 10 }

/-- A one-key key set holding the kid 112. -/
def ks0 : List (String × JWK) := [("112", { kid := "112" })]

/-- A token carrying kid 112 and the claims cl0, with a valid signature. -/
def tok0 : Token := .parsed ["112"] cl0 (fun _ => true)

/-! ## Helper lemmas -/

theorem fwStep_bounds (size cur c : Int) (e : Option GrantError) (op : FwOp)
    (h0 : 0 ≤ cur) (h1 : cur ≤ size) (h : fwStep size cur op = some (c, e)) :
    0 ≤ c ∧ c ≤ size := by
  cases op with
  | grant b =>
    simp only [fwStep, grantStep, tryAcquire, release] at h
    split_ifs at h <;> simp_all <;> omega
  | revoke b =>
    simp only [fwStep, revokeStep, release] at h
    split_ifs at h <;> simp_all <;> omega

theorem fwRun_bounds (size : Int) (ops : List FwOp) :
    ∀ cur f : Int, 0 ≤ cur → cur ≤ size → fwRun size ops cur = some f →
    0 ≤ f ∧ f ≤ size := by
  induction ops with
  | nil =>
    intro cur f h0 h1 h
    simp only [fwRun, Option.some.injEq] at h
    omega
  | cons op rest ih =>
    intro cur f h0 h1 h
    simp only [fwRun] at h
    cases hs : fwStep size cur op with
    | none => rw [hs] at h; exact absurd h (by simp)
    | some p =>
      rw [hs] at h
      obtain ⟨c, e⟩ := p
      have hb := fwStep_bounds size cur c e op h0 h1 hs
      exact ih c f hb.1 hb.2 h

theorem containsKid_false_iff (acc : List (String × JWK)) (kid : String) :
    containsKid acc kid = false ↔ kid ∉ acc.map Prod.fst := by
  induction acc with
  | nil => simp [containsKid]
  | cons p rest ih =>
    simp only [containsKid, List.any_cons, Bool.or_eq_false_iff,
      decide_eq_false_iff_not, List.map_cons, List.mem_cons] at *
    constructor
    · rintro ⟨h1, h2⟩ (h | h)
      · exact h1 h.symm
      · exact (ih.mp h2) h
    · intro h
      exact ⟨fun he => h (Or.inl he.symm), ih.mpr fun hm => h (Or.inr hm)⟩

theorem newVerifierLoop_ok (descs : List KeyDesc) :
    ∀ acc m : List (String × JWK), newVerifierLoop descs acc = .ok m →
      m.map Prod.fst = acc.map Prod.fst ++ kidsOf descs ∧
      ((acc.map Prod.fst).Nodup → (m.map Prod.fst).Nodup) := by
  induction descs with
  | nil =>
    intro acc m h
    simp only [newVerifierLoop, Except.ok.injEq] at h
    subst h
    simp [kidsOf]
  | cons d rest ih =>
    intro acc m h
    cases d with
    | invalid => simp [newVerifierLoop, loadJSONWebKey] at h
    | valid k =>
      simp only [newVerifierLoop, loadJSONWebKey] at h
      by_cases hc : containsKid acc k.kid = true
      · rw [if_pos hc] at h
        exact absurd h (by simp)
      · rw [if_neg hc] at h
        obtain ⟨hm, hnd⟩ := ih (acc ++ [(k.kid, k)]) m h
        have hk : k.kid ∉ acc.map Prod.fst :=
          (containsKid_false_iff acc k.kid).mp (by simpa using hc)
        constructor
        · rw [hm]
          simp [kidsOf, List.filterMap_cons]
        · intro hacc
          apply hnd
          simp only [List.map_append, List.map_cons, List.map_nil]
          simp [List.nodup_append, hacc, hk]

theorem newVerifierLoop_valid_no_load_failure (ks : List JWK) :
    ∀ acc, newVerifierLoop (ks.map KeyDesc.valid) acc ≠
      .error .loadError := by
  induction ks with
  | nil =>
    intro acc h
    simp [newVerifierLoop] at h
  | cons k rest ih =>
    intro acc h
    simp only [List.map_cons, newVerifierLoop, loadJSONWebKey] at h
    by_cases hc : containsKid acc k.kid = true
    · rw [if_pos hc] at h
      simp at h
    · rw [if_neg hc] at h
      exact ih _ h

theorem kidsOf_map_valid (ks : List JWK) :
    kidsOf (ks.map KeyDesc.valid) = ks.map JWK.kid := by
  induction ks with
  | nil => rfl
  | cons k rest ih =>
    simp only [List.map_cons, kidsOf, List.filterMap_cons] at *
    rw [ih]


/-- C1: for every sequence of Grant and Revoke calls on an IPManager with
capacity K at least 0, the outstanding reservation count stays within
[0, K]; Grant at an exhausted budget fails with the distinguished
max-concurrent error reserving nothing; a successful Grant reserves
exactly one unit; a Grant whose rule insertion fails releases the
reservation before returning the error; a Revoke whose rule deletion
fails leaves the counter unchanged, and a successful Revoke releases one
unit. -/
theorem ipmanager_grant_budget :
    (∀ (size : Int) (ops : List FwOp) (f : Int), 0 ≤ size →
      fwRun size ops 0 = some f → 0 ≤ f ∧ f ≤ size) ∧
    (∀ (size cur : Int) (b : Bool), size < cur + 1 →
      grantStep size cur b = some (cur, some .maxConcurrent)) ∧
    (∀ size cur : Int, cur + 1 ≤ size →
      grantStep size cur true = some (cur + 1, none)) ∧
    (∀ size cur : Int, cur + 1 ≤ size → 0 ≤ cur →
      grantStep size cur false = some (cur, some .insertError)) ∧
    (∀ cur : Int, revokeStep cur false = some (cur, some .deleteError)) ∧
    (∀ cur : Int, 1 ≤ cur → revokeStep cur true = some (cur - 1, none)) := by
  refine ⟨?_, ?_, ?_, ?_, ?_, ?_⟩
  · intro size ops f hK h
    exact fwRun_bounds size ops 0 f le_rfl hK h
  · intro size cur b h
    have ht : tryAcquire size cur = false := by
      simp only [tryAcquire, decide_eq_false_iff_not]
      omega
    simp [grantStep, ht]
  · intro size cur h
    have ht : tryAcquire size cur = true := by
      simp only [tryAcquire, decide_eq_true_eq]
      omega
    simp [grantStep, ht]
  · intro size cur h h0
    have ht : tryAcquire size cur = true := by
      simp only [tryAcquire, decide_eq_true_eq]
      omega
    have hr : release (cur + 1) = some cur := by
      unfold release
      rw [if_neg (by omega)]
      norm_num
    simp [grantStep, ht, hr]
  · intro cur
    simp [revokeStep]
  · intro cur h
    have hr : release cur = some (cur - 1) := by
      unfold release
      rw [if_neg (by omega)]
    simp [revokeStep, hr]

/-- Witness for C1 at capacity 2 with a run that grants twice, fails one
insertion, fails one deletion and revokes once. -/
theorem ipmanager_grant_budget_witness :
    0 ≤ (2 : Int) ∧
    fwRun 2 [FwOp.grant true, FwOp.grant false, FwOp.revoke false,
      FwOp.revoke true] 0 = some 0 ∧
    (0 ≤ (0 : Int) ∧ (0 : Int) ≤ 2) :=
  ⟨by decide, by decide,
    ipmanager_grant_budget.1 2
      [FwOp.grant true, FwOp.grant false, FwOp.revoke false, FwOp.revoke true]
      0 (by decide) (by decide)⟩

/-- C2 counterexample: the claim states that Verify validates with zero
leeway, so that validation passes only when the evaluation instant is
strictly less than the claim expiry.  On the code this is false: the
validation call is jwt.Claims.Validate, which applies the go-jose default
leeway of one minute.  At the concrete token tok0 (expiry 100) and the
expected pattern exp0 (evaluation instant 130), Verify succeeds although
130 is not strictly less than 100. -/
theorem verify_zero_leeway_counterexample :
    verify ks0 tok0 exp0 = (some cl0, none) ∧ ¬ (130 < cl0.expiry) := by
  constructor
  · decide
  · decide

/-- C2 (amended): Verify validates the claims with the go-jose default
leeway of one minute rather than zero.  With the evaluation instant t set
in the expected pattern: validation succeeds iff the expected issuer
equals the claim issuer when non-empty (likewise subject and id), at least
one expected audience element appears in the claim audience, the claim
not-before is at most t plus the leeway, and t minus the leeway is at most
the claim expiry; the validation error is the distinguished expired error
exactly when every earlier check passes and the expiry check fails; and
when claim extraction succeeds Verify returns those claims together with
the outcome of this validation. -/
theorem verify_default_leeway_validation :
    (∀ (cl : Claims) (e : Expected) (t : Int), e.time = some t →
      ((validate cl e = none ↔
         (e.issuer = "" ∨ e.issuer = cl.issuer) ∧
         (e.subject = "" ∨ e.subject = cl.subject) ∧
         (e.id = "" ∨ e.id = cl.id) ∧
         (e.anyAudience = [] ∨
           e.anyAudience.any (fun v => cl.audience.contains v) = true) ∧
         cl.notBefore ≤ t + 60 ∧ t - 60 ≤ cl.expiry) ∧
       (validate cl e = some .expired ↔
         (e.issuer = "" ∨ e.issuer = cl.issuer) ∧
         (e.subject = "" ∨ e.subject = cl.subject) ∧
         (e.id = "" ∨ e.id = cl.id) ∧
         (e.anyAudience = [] ∨
           e.anyAudience.any (fun v => cl.audience.contains v) = true) ∧
         cl.notBefore ≤ t + 60 ∧ ¬ (t - 60 ≤ cl.expiry)))) ∧
    (∀ (keys : List (String × JWK)) (tok : Token) (e : Expected)
        (cl : Claims), claimsOf keys tok = .ok cl →
      verify keys tok e = (some cl, (validate cl e).map .validationError)) := by
  constructor
  · intro cl e t ht
    simp only [validate, validateWithLeeway, defaultLeeway, ht]
    split_ifs with h1 h2 h3 h4 h5 h6
    · exact ⟨iff_of_false (by simp) (by tauto), iff_of_false (by simp) (by tauto)⟩
    · exact ⟨iff_of_false (by simp) (by tauto), iff_of_false (by simp) (by tauto)⟩
    · exact ⟨iff_of_false (by simp) (by tauto), iff_of_false (by simp) (by tauto)⟩
    · exact ⟨iff_of_false (by simp) (by tauto), iff_of_false (by simp) (by tauto)⟩
    · refine ⟨iff_of_false (by simp) ?_, iff_of_false (by simp) ?_⟩ <;>
        exact fun hR => absurd hR.2.2.2.2.1 (by omega)
    · refine ⟨iff_of_false (by simp) fun hR => absurd hR.2.2.2.2.2 (by omega),
        iff_of_true rfl ⟨by tauto, by tauto, by tauto, by tauto, by omega, by omega⟩⟩
    · refine ⟨iff_of_true rfl ⟨by tauto, by tauto, by tauto, by tauto, by omega, by omega⟩,
        iff_of_false (by simp) fun hR => hR.2.2.2.2.2 (by omega)⟩
  · intro keys tok e cl hcl
    simp [verify, hcl]

/-- Witness for C2 at the concrete key set ks0, token tok0 and pattern
exp0: the validation characterization and the Verify outcome both hold at
evaluation instant 130. -/
theorem verify_default_leeway_validation_witness :
    validate cl0 exp0 = none ∧
    verify ks0 tok0 exp0 = (some cl0, (validate cl0 exp0).map .validationError) :=
  ⟨((verify_default_leeway_validation.1 cl0 exp0 130 rfl).1).mpr (by decide),
    verify_default_leeway_validation.2 ks0 tok0 exp0 cl0 rfl⟩

/-- C9: when claim extraction (parse, key lookup, signature) succeeds but
validation of the expected claims fails, Verify returns the decoded
claims, equal to the claims-only extraction result, together with the
non-nil validation error. -/
theorem verify_claims_available_on_validation_error :
    ∀ (keys : List (String × JWK)) (tok : Token) (e : Expected)
      (cl : Claims) (v : ValidationError),
      claimsOf keys tok = .ok cl → validate cl e = some v →
      verify keys tok e = (some cl, some (.validationError v)) := by
  intro keys tok e cl v hcl hv
  simp [verify, hcl, hv]

/-- Witness for C9: at the key set ks0, token tok0 and the pattern exp1
whose issuer mismatches, Verify yields the claims cl0 alongside the
invalid-issuer validation error. -/
theorem verify_claims_available_on_validation_error_witness :
    verify ks0 tok0 exp1 =
      (some cl0, some (.validationError .invalidIssuer)) :=
  verify_claims_available_on_validation_error ks0 tok0 exp1 cl0
    .invalidIssuer rfl (by decide)

/-- C3: the credential gate allows a request to a non-enforced path
unconditionally with no claim attached; on an enforced path a missing
token is allowed without a claim when tokens are not required and
rejected with 401 when they are; a present token is verified, and the
request is allowed with the claim attached on success and rejected with
401 on failure. -/
theorem credential_gate_cases :
    (∀ (enforced : List String) (required : Bool)
        (vtok : String → Option Claims) (path : String)
        (token : Option String), enforced.contains path = false →
      credentialGate enforced required vtok path token = .allow none) ∧
    (∀ (enforced : List String) (vtok : String → Option Claims)
        (path : String), enforced.contains path = true →
      credentialGate enforced false vtok path none = .allow none) ∧
    (∀ (enforced : List String) (vtok : String → Option Claims)
        (path : String), enforced.contains path = true →
      credentialGate enforced true vtok path none = .reject 401) ∧
    (∀ (enforced : List String) (required : Bool)
        (vtok : String → Option Claims) (path t : String) (cl : Claims),
      enforced.contains path = true → vtok t = some cl →
      credentialGate enforced required vtok path (some t) =
        .allow (some cl)) ∧
    (∀ (enforced : List String) (required : Bool)
        (vtok : String → Option Claims) (path t : String),
      enforced.contains path = true → vtok t = none →
      credentialGate enforced required vtok path (some t) = .reject 401) := by
  refine ⟨?_, ?_, ?_, ?_, ?_⟩
  · intro enforced required vtok path token h
    have hm : path ∉ enforced := by simpa using h
    simp [credentialGate, hm]
  · intro enforced vtok path h
    have hm : path ∈ enforced := by simpa using h
    simp [credentialGate, hm]
  · intro enforced vtok path h
    have hm : path ∈ enforced := by simpa using h
    simp [credentialGate, hm]
  · intro enforced required vtok path t cl h hv
    have hm : path ∈ enforced := by simpa using h
    simp [credentialGate, hm, hv]
  · intro enforced required vtok path t h hv
    have hm : path ∈ enforced := by simpa using h
    simp [credentialGate, hm, hv]

/-- Witness for C3 on the enforced path of the envelope service with a
token that verifies to cl0. -/
theorem credential_gate_cases_witness :
    credentialGate ["/v0/envelope/access"] true (fun _ => some cl0)
      "/v0/envelope/access" (some "tok") = .allow (some cl0) :=
  credential_gate_cases.2.2.2.1 ["/v0/envelope/access"] true
    (fun _ => some cl0) "/v0/envelope/access" "tok" cl0 (by decide) rfl

/-- C4: getDeadline errors on a missing claim when tokens are required,
on a claim subject differing from the configured service subject, and on
a claim expiry already past; otherwise the deadline is the maximum of the
claim expiry and now plus the minimum timeout, with no claim at all
yielding now plus the minimum timeout; every successfully computed
deadline is at least now plus the minimum timeout. -/
theorem getDeadline_spec :
    (∀ (timeout subject : _) (now : Int),
      getDeadline true timeout subject now none = .error .missingClaim) ∧
    (∀ (rt : Bool) (timeout : Int) (subject : String) (now : Int)
        (c : Claims), c.subject ≠ subject →
      getDeadline rt timeout subject now (some c) = .error .wrongSubject) ∧
    (∀ (rt : Bool) (timeout : Int) (subject : String) (now : Int)
        (c : Claims), c.subject = subject → c.expiry < now →
      getDeadline rt timeout subject now (some c) =
        .error .pastExpiration) ∧
    (∀ (rt : Bool) (timeout : Int) (subject : String) (now : Int)
        (c : Claims), c.subject = subject → now ≤ c.expiry →
      getDeadline rt timeout subject now (some c) =
        .ok (max c.expiry (now + timeout))) ∧
    (∀ (timeout : Int) (subject : String) (now : Int),
      getDeadline false timeout subject now none = .ok (now + timeout)) ∧
    (∀ (rt : Bool) (timeout : Int) (subject : String) (now : Int)
        (cl : Option Claims) (d : Int),
      getDeadline rt timeout subject now cl = .ok d → now + timeout ≤ d) := by
  refine ⟨?_, ?_, ?_, ?_, ?_, ?_⟩
  · intro timeout subject now
    simp [getDeadline]
  · intro rt timeout subject now c h
    simp [getDeadline, h]
  · intro rt timeout subject now c hs he
    simp [getDeadline, hs, he]
  · intro rt timeout subject now c hs he
    simp only [getDeadline, hs, ne_eq, not_true_eq_false, if_false]
    rw [if_neg (by omega)]
    by_cases hlt : c.expiry < now + timeout
    · rw [if_pos hlt]
      simp only [Except.ok.injEq]
      omega
    · rw [if_neg hlt]
      simp only [Except.ok.injEq]
      omega
  · intro timeout subject now
    simp [getDeadline]
  · intro rt timeout subject now cl d h
    cases cl with
    | none =>
      simp only [getDeadline] at h
      split_ifs at h
      simp only [Except.ok.injEq] at h
      omega
    | some c =>
      simp only [getDeadline] at h
      split_ifs at h <;> simp only [Except.ok.injEq] at h <;> omega

/-- Witness for C4 at a claim expiring after the minimum window. -/
theorem getDeadline_spec_witness :
    getDeadline true 60 "envelope" 10 (some cl0) = .ok (max cl0.expiry 70) ∧
    ((10 : Int) + 60 ≤ 100) :=
  ⟨getDeadline_spec.2.2.2.1 true 60 "envelope" 10 cl0 (by decide) (by decide),
    getDeadline_spec.2.2.2.2.2 true 60 "envelope" 10 (some cl0) 100
      rfl⟩

/-- C5: on an address whose budget reservation succeeds, Grant issues
exactly three INSERT (not append) rules on the INPUT chain: ACCEPT for
the source subnet of the address (/24 for IPv4, /64 for IPv6), ACCEPT for
tcp destination port 80, and ACCEPT for tcp destination port 443; the
packet-filter tool is the IPv4 utility exactly when the address family is
IPv4. -/
theorem grant_inserts_three_rules :
    ∀ (ip : IPAddr) (rules : List FwRule), grantRules true ip = .ok rules →
      rules = allowRules "insert" ip ∧
      rules.length = 3 ∧
      (∀ r ∈ rules, r.action = "insert" ∧ r.chain = "INPUT" ∧
        r.jump = "ACCEPT" ∧ r.tool = (cmdForIP ip).1) ∧
      (∃ r1 r2 r3, rules = [r1, r2, r3] ∧
        r1.source = some (ip.str ++ (cmdForIP ip).2) ∧
        r2.protocol = some "tcp" ∧ r2.dport = some 80 ∧
        r3.protocol = some "tcp" ∧ r3.dport = some 443) ∧
      (∀ s, ip = .v4 s → cmdForIP ip = ("ip4tables", "/24")) ∧
      (∀ s, ip = .v6 s → cmdForIP ip = ("ip6tables", "/64")) := by
  intro ip rules h
  have hr : rules = allowRules "insert" ip := by
    simp only [grantRules, if_pos, Except.ok.injEq] at h
    exact h.symm
  subst hr
  refine ⟨rfl, ?_, ?_, ?_, ?_, ?_⟩
  · cases ip <;> rfl
  · intro r hrm
    cases ip <;> simp [allowRules, cmdForIP] at hrm <;>
      rcases hrm with h | h | h <;> subst h <;> exact ⟨rfl, rfl, rfl, rfl⟩
  · cases ip <;>
      exact ⟨_, _, _, rfl, rfl, rfl, rfl, rfl, rfl⟩
  · intro s hs
    subst hs
    rfl
  · intro s hs
    subst hs
    rfl

/-- Witness for C5 at the IPv4 address 127.0.0.2. -/
theorem grant_inserts_three_rules_witness :
    grantRules true (.v4 "127.0.0.2") = .ok (allowRules "insert" (.v4 "127.0.0.2")) ∧
    (allowRules "insert" (.v4 "127.0.0.2")).length = 3 :=
  ⟨rfl, (grant_inserts_three_rules (.v4 "127.0.0.2")
    (allowRules "insert" (.v4 "127.0.0.2")) rfl).2.1⟩

/-- C6: isLimited is true iff the ceiling is non-zero, the current rate
strictly exceeds it, the request is not flagged monitoring, and the path
is enforced; consequently a request whose validated claim has subject
monitoring is never rejected by the rate gate. -/
theorem isLimited_iff_and_monitoring_bypass :
    (∀ (limit cur : Nat) (m e : Bool), isLimited limit cur m e = true ↔
      0 < limit ∧ limit < cur ∧ m = false ∧ e = true) ∧
    (∀ (limit cur : Nat) (cl : Claims) (enforced : List String)
        (path : String), cl.subject = "monitoring" →
      txLimitGate limit cur (some cl) enforced path = false) := by
  constructor
  · intro limit cur m e
    constructor
    · intro h
      simp only [isLimited] at h
      split_ifs at h with hc
      obtain ⟨h1, h2, h3, h4⟩ := hc
      exact ⟨h1, h2, by simpa using h3, h4⟩
    · rintro ⟨h1, h2, h3, h4⟩
      subst h3
      subst h4
      simp [isLimited, h1, h2]
  · intro limit cur cl enforced path h
    simp [txLimitGate, IsMonitoring, isLimited, h]

/-- Witness for C6: a monitoring claim passes the rate gate at a rate of
2 over a ceiling of 1 on an enforced path. -/
theorem isLimited_iff_and_monitoring_bypass_witness :
    isLimited 1 2 false true = true ∧
    txLimitGate 1 2 (some { cl0 with subject := "monitoring" }) ["/"] "/" =
      false :=
  ⟨(isLimited_iff_and_monitoring_bypass.1 1 2 false true).mpr
      ⟨by decide, by decide, rfl, rfl⟩,
    isLimited_iff_and_monitoring_bypass.2 1 2
      { cl0 with subject := "monitoring" } ["/"] "/" rfl⟩

/-- C7: constructing the verifier from descriptors among which two carry
the same kid fails with the distinguished duplicate-key-id error, and
every successfully constructed key set has pairwise distinct key
identifiers. -/
theorem newVerifier_duplicate_kid :
    (∀ ks : List JWK, ¬ (ks.map JWK.kid).Nodup →
      ∃ kid, NewVerifier (ks.map KeyDesc.valid) =
        .error (.duplicateKeyID kid)) ∧
    (∀ (descs : List KeyDesc) (m : List (String × JWK)),
      NewVerifier descs = .ok m → (m.map Prod.fst).Nodup) := by
  have hok : ∀ (descs : List KeyDesc) (m : List (String × JWK)),
      NewVerifier descs = .ok m →
      (m.map Prod.fst).Nodup ∧ m.map Prod.fst = kidsOf descs := by
    intro descs m h
    obtain ⟨hm, hnd⟩ := newVerifierLoop_ok descs [] m h
    simp only [List.map_nil, List.nil_append] at hm
    exact ⟨hnd (by simp), hm⟩
  constructor
  · intro ks hdup
    cases h : NewVerifier (ks.map KeyDesc.valid) with
    | ok m =>
      obtain ⟨hnd, hm⟩ := hok _ m h
      rw [hm, kidsOf_map_valid] at hnd
      exact absurd hnd hdup
    | error e =>
      cases e with
      | loadError =>
        exact absurd h (newVerifierLoop_valid_no_load_failure ks [])
      | duplicateKeyID kid => exact ⟨kid, rfl⟩
  · intro descs m h
    exact (hok descs m h).1

/-- Witness for C7: two copies of the kid 112 make construction fail with
the duplicate-key-id error. -/
theorem newVerifier_duplicate_kid_witness :
    ¬ (([⟨"112"⟩, ⟨"112"⟩] : List JWK).map JWK.kid).Nodup ∧
    ∃ kid, NewVerifier (([⟨"112"⟩, ⟨"112"⟩] : List JWK).map KeyDesc.valid) =
      .error (.duplicateKeyID kid) :=
  ⟨by decide, newVerifier_duplicate_kid.1 [⟨"112"⟩, ⟨"112"⟩] (by decide)⟩

/-- C8: Stop before a successful Start is a hard error restoring nothing;
Stop after a successful Start pipes the two saved rulesets into the
restore utilities and returns the concatenation of their outputs. -/
theorem stop_restore_lifecycle :
    (∀ (st : FwSnapshots) (r4 r6 : Bytes → Bytes),
      st.origRules4 = none ∨ st.origRules6 = none →
      stopRestore st r4 r6 = (.error .notStarted, [])) ∧
    (∀ (b4 b6 : Bytes) (st : FwSnapshots) (r4 r6 : Bytes → Bytes),
      startSnapshots (.ok b4) (.ok b6) = .ok st →
      stopRestore st r4 r6 = (.ok (r4 b4 ++ r6 b6), [b4, b6])) := by
  constructor
  · intro st r4 r6 h
    obtain ⟨o4, o6⟩ := st
    dsimp only at h
    rcases h with h | h
    · subst h
      cases o6 <;> rfl
    · subst h
      cases o4 <;> rfl
  · intro b4 b6 st r4 r6 h
    simp only [startSnapshots, Except.ok.injEq] at h
    subst h
    rfl

/-- Witness for C8: a fresh manager refuses Stop, and after a Start that
saved both rulesets Stop returns the concatenated restore outputs. -/
theorem stop_restore_lifecycle_witness :
    stopRestore { origRules4 := none, origRules6 := none } id id =
      (.error .notStarted, []) ∧
    stopRestore { origRules4 := some [1], origRules6 := some [2] } id id =
      (.ok ([1] ++ [2]), [[1], [2]]) :=
  ⟨stop_restore_lifecycle.1 { origRules4 := none, origRules6 := none }
      id id (Or.inl rfl),
    stop_restore_lifecycle.2 [1] [2]
      { origRules4 := some [1], origRules6 := some [2] } id id rfl⟩

/-- C10: Accept on a nil TxController is a pure pass-through of the
underlying listener result; on a non-nil controller an underlying Accept
error is propagated without consulting the rate limit; an accepted
connection while over the limit is closed and replaced by the rejection
error; otherwise the connection is returned. -/
theorem accept_passthrough_and_reject :
    (∀ res : Except String Nat, acceptTx none res = (res, false, false)) ∧
    (∀ (t : TxState) (e : String),
      acceptTx (some t) (.error e) = (.error e, false, false)) ∧
    (∀ (t : TxState) (c : Nat), isLimited t.limit t.cur false true = true →
      acceptTx (some t) (.ok c) =
        (.error "TxController rejected connection", true, true)) ∧
    (∀ (t : TxState) (c : Nat), isLimited t.limit t.cur false true = false →
      acceptTx (some t) (.ok c) = (.ok c, false, true)) := by
  refine ⟨?_, ?_, ?_, ?_⟩
  · intro res
    rfl
  · intro t e
    rfl
  · intro t c h
    simp [acceptTx, h]
  · intro t c h
    simp [acceptTx, h]

/-- Witness for C10 at a controller whose current rate 2 exceeds the
ceiling 1: the accepted connection 7 is closed and rejected. -/
theorem accept_passthrough_and_reject_witness :
    acceptTx (some { limit := 1, cur := 2 }) (.ok 7) =
      (.error "TxController rejected connection", true, true) :=
  accept_passthrough_and_reject.2.2.1 { limit := 1, cur := 2 } 7 (by decide)

end Access
